import Mathlib

/-!
Verification development for the llmproc repository.

This file gives a shallow embedding of the parts of llmproc that the
claims concern: the Anthropic provider executor loop
(src/llmproc/providers/anthropic_process_executor.py), the process state
operations (src/llmproc/llm_process.py), the spawn tool
(src/llmproc/tools/spawn.py), the program compiler (src/llmproc/program.py)
and the file-descriptor tool wrappers
(src/llmproc/tools/builtin/fd_tools.py).

Conventions of the embedding:
  * Python mutation of a process object is rendered as explicit state
    passing: functions take a process value and return the updated value.
  * Python exceptions are rendered with Except; an exception that the
    source lets propagate becomes an error value of the embedding.
  * Dynamically typed Python values that a claim needs to distinguish are
    rendered with the small PyVal type; attribute lookup on them is the
    partial function pyGetAttr, which fails exactly where Python raises
    AttributeError.
  * Pieces of the repository that the source tree does not contain (the
    Process deepcopy used by the executor fork, the allow_fork field, the
    FD manager, ToolResult) are modelled from the spec; each such
    definition carries a doc comment starting with: Modelled from the spec.
  * Quote punctuation inside Python message strings is elided (the exact
    quoting of identifiers inside error messages is not load bearing for
    any claim).
-/

/-- Dynamically typed Python value, as far as the claims need it. -/
inductive PyVal where
  | vInt (n : Nat)
  | vStr (s : String)
deriving DecidableEq, Repr

/-- Python exceptions that the embedded code can raise or propagate. -/
inductive PyErr where
  | attributeError (msg : String)
  | valueError (msg : String)
  | runtimeError (msg : String)
  | keyError (msg : String)
  | providerError (msg : String)
deriving DecidableEq, Repr

/-- Rendering of str(e) used when the source interpolates an exception. -/
def pyErrStr : PyErr → String
  | .attributeError m => m
  | .valueError m => m
  | .runtimeError m => m
  | .keyError m => m
  | .providerError m => m

/-- Attribute lookup on a PyVal.  An int or str has no api_calls
attribute, so the lookup raises AttributeError exactly as Python does. -/
def pyGetAttr (v : PyVal) (attr : String) : Except PyErr PyVal :=
  match v with
  | .vInt _ => .error (.attributeError ("int object has no attribute " ++ attr))
  | .vStr _ => .error (.attributeError ("str object has no attribute " ++ attr))

/-- Arguments of a tool_use block.  The fork tool reads args[prompts];
any other argument payload is kept opaque as a string. -/
inductive ToolArgs where
  | promptsArg (ps : List String)
  | strArg (s : String)
deriving DecidableEq, Repr

/-- Content block of a provider response or of a structured message,
mirroring the Anthropic block shapes the source inspects (content.type is
text, tool_use or tool_result). -/
inductive Block where
  | text (s : String)
  | toolUse (id name : String) (args : ToolArgs)
  | toolResult (toolUseId : String) (content : String)
deriving DecidableEq, Repr

/-- Message content: either a plain string or a list of blocks. -/
inductive MsgContent where
  | str (s : String)
  | blocks (bs : List Block)
deriving DecidableEq, Repr

/-- Conversation message as stored in LLMProcess.state. -/
structure Msg where
  role : String
  content : MsgContent
deriving DecidableEq, Repr

/-- Provider response: content blocks plus stop_reason. -/
structure ProviderResponse where
  content : List Block
  stopReason : String
deriving DecidableEq, Repr

/-- Process state, the fields of LLMProcess that the embedded operations
read or write.  allow_fork is not defined by LLMProcess.__init__ in the
source; it is modelled from the spec (true for a root process, cleared in
forked children). -/
structure Proc where
  messages : List Msg
  enrichedSystemPrompt : Option String
  runStopReason : Option String
  stopReason : Option String
  allowFork : Bool
deriving DecidableEq, Repr

/-- Environment of oracles for the effectful boundary: the provider
client, the tool registry dispatch, and enriched-system-prompt
generation. -/
structure Env where
  provider : List Msg → Except PyErr ProviderResponse
  callTool : String → ToolArgs → Except PyErr String
  enrich : Proc → String

/-- Messages sent to the provider: the source filters out system-role
messages from process.messages. -/
def filterNonSystem (msgs : List Msg) : List Msg :=
  msgs.filter (fun m => m.role ≠ "system")

/-- Whether a block is a tool_use block. -/
def Block.isToolUse : Block → Bool
  | .toolUse _ _ _ => true
  | _ => false

/-- has_tool_calls of the executor: some content block has type tool_use. -/
def hasToolCalls (r : ProviderResponse) : Bool :=
  r.content.any Block.isToolUse

/-- Error message of _fork when the process may not fork. -/
def forkNotAllowedMsg : String :=
  "Forking is not allowed for this agent, possible reason: You are already a forked instance"

/-- Canned tool result appended to each fork child. -/
def forkChildToolResultMsg : String :=
  "pid==0, you are a child instance produced from a fork. you are not allowed to use the fork tool. please continue the conversation with only the assigned goal"

/-- JSON string escaping, enough for json.dumps on the fork result. -/
def jsonEscape (s : String) : String :=
  String.join (s.toList.map (fun c =>
    if c = Char.ofNat 34 then "\\\""
    else if c = Char.ofNat 92 then "\\\\"
    else if c = Char.ofNat 10 then "\\n"
    else String.singleton c))

/-- Rendering of json.dumps applied to the fork responses, a list of
dicts with keys id and message (in that insertion order). -/
def jsonDumpsForkResponses (rs : List (Nat × String)) : String :=
  "[" ++ String.intercalate ", "
    (rs.map (fun p =>
      "\x7b\"id\": " ++ toString p.1 ++ ", \"message\": \"" ++ jsonEscape p.2 ++ "\"\x7d"))
  ++ "]"

/-- Modelled from the spec: Process.deepcopy, called by the executor fork
(the source marks it TODO and provides no implementation; the spec says a
fork child is a deep copy with allow_fork cleared).  Value semantics make
the copy itself implicit; the visible effect kept here is clearing
allow_fork. -/
def specDeepcopy (p : Proc) : Proc :=
  { p with allowFork := false }

/-- Child process set up by _fork for one prompt: deep copy of the
parent, then the last assistant response with all sibling tool_use blocks
except the fork call removed, then the canned tool result. -/
def forkChildSetup (parent : Proc) (toolId : String) (lastAssistantResponse : List Block) : Proc :=
  let child := specDeepcopy parent
  let kept := lastAssistantResponse.filter (fun b =>
    match b with
    | .toolUse id _ _ => id = toolId
    | _ => true)
  { child with messages := child.messages
      ++ [{ role := "assistant", content := .blocks kept }]
      ++ [{ role := "user", content := .blocks [.toolResult toolId forkChildToolResultMsg] }] }

/-- Outcome of one executor run: final process, loop iterations (the
return value of AnthropicProcessExecutor.run), provider requests made,
and the exception that propagated, if any. -/
structure ExecOut where
  proc : Proc
  iterations : Nat
  requests : Nat
  err : Option PyErr
deriving Repr

/-- Type of the fork handler the executor dispatches tool_use blocks
named fork to.  It receives the environment, the current process, the
tool args, the tool_use id and the full response content; it returns the
tool result (or the exception that propagated) together with the list of
child processes it constructed (the list is observational, for stating
claims; the source returns only the result). -/
def ForkH : Type :=
  Env → Proc → ToolArgs → String → List Block → (Except PyErr String) × List Proc

/-- Dispatch loop over the content blocks of a response carrying tool
calls: text blocks are skipped, tool_use blocks named fork go to the fork
handler, all others go through process.call_tool, which wraps any raised
exception into RuntimeError.  Returns the tool-result messages in block
order, or the first exception. -/
def dispatchBlocks (fh : ForkH) (env : Env) (proc : Proc) (respContent : List Block) :
    List Block → Except PyErr (List Msg)
  | [] => .ok []
  | b :: rest =>
    match b with
    | .text _ => dispatchBlocks fh env proc respContent rest
    | .toolResult _ _ => dispatchBlocks fh env proc respContent rest
    | .toolUse id name args =>
      let res : Except PyErr String :=
        if name = "fork" then
          (fh env proc args id respContent).1
        else
          match env.callTool name args with
          | .ok r => .ok r
          | .error e => .error (.runtimeError ("Error executing tool " ++ name ++ ": " ++ pyErrStr e))
      match res with
      | .error e => .error e
      | .ok r =>
        match dispatchBlocks fh env proc respContent rest with
        | .error e => .error e
        | .ok rs => .ok ({ role := "user", content := .blocks [.toolResult id r] } :: rs)

/-- Executor while-loop (while iterations < max_iterations).  remaining
is the number of loop entries still permitted; iters and reqs accumulate
the iteration and provider-request counts. -/
def runLoop (fh : ForkH) (env : Env) : Nat → Proc → Nat → Nat → ExecOut
  | 0, proc, iters, reqs =>
    { proc := proc, iterations := iters, requests := reqs, err := none }
  | remaining + 1, proc, iters, reqs =>
    match env.provider (filterNonSystem proc.messages) with
    | .error e =>
      { proc := proc, iterations := iters + 1, requests := reqs + 1, err := some e }
    | .ok response =>
      let proc := { proc with stopReason := some response.stopReason }
      if hasToolCalls response then
        match dispatchBlocks fh env proc response.content response.content with
        | .error e =>
          { proc := proc, iterations := iters + 1, requests := reqs + 1, err := some e }
        | .ok toolResults =>
          let proc := { proc with messages :=
            proc.messages ++ [{ role := "assistant", content := .blocks response.content }] ++ toolResults }
          runLoop fh env remaining proc (iters + 1) (reqs + 1)
      else
        let proc :=
          if response.content.isEmpty then proc
          else { proc with messages :=
            proc.messages ++ [{ role := "assistant", content := .blocks response.content }] }
        let proc := { proc with runStopReason := some response.stopReason }
        { proc := proc, iterations := iters + 1, requests := reqs + 1, err := none }

/-- Entry step of AnthropicProcessExecutor.run: append the user prompt
(unless this is a tool continuation) and clear run_stop_reason. -/
def execStartProc (proc : Proc) (userPrompt : String) (isToolContinuation : Bool) : Proc :=
  let proc :=
    if isToolContinuation then proc
    else { proc with messages := proc.messages ++ [{ role := "user", content := .str userPrompt }] }
  { proc with runStopReason := none }

/-- Post-loop step of AnthropicProcessExecutor.run: when no exception
propagated and the iteration count reached the ceiling, set
run_stop_reason to max_iterations. -/
def execRunPost (maxIterations : Nat) (out : ExecOut) : ExecOut :=
  match out.err with
  | some _ => out
  | none =>
    if maxIterations ≤ out.iterations then
      { out with proc := { out.proc with runStopReason := some "max_iterations" } }
    else out

/-- AnthropicProcessExecutor.run: entry step, iteration loop, post-loop
step. -/
def execRunWith (fh : ForkH) (env : Env) (proc : Proc) (userPrompt : String)
    (maxIterations : Nat) (isToolContinuation : Bool) : ExecOut :=
  execRunPost maxIterations
    (runLoop fh env maxIterations (execStartProc proc userPrompt isToolContinuation) 0 0)

/-- AnthropicProcessExecutor.run_till_text_response.  The loop body first
awaits self.run, which returns an int, and then reads run_result.api_calls
from that int; the attribute lookup raises AttributeError on the first
iteration, so the loop body never completes (any provider or tool
exception from the inner run propagates first). -/
def runTillTextResponse (fh : ForkH) (env : Env) (proc : Proc) (userPrompt : String)
    (maxIterations : Nat) : Except PyErr String :=
  if maxIterations = 0 then
    .ok "Maximum iterations reached without final response."
  else
    let out := execRunWith fh env proc userPrompt maxIterations false
    match out.err with
    | some e => .error e
    | none =>
      match pyGetAttr (.vInt out.iterations) "api_calls" with
      | .error e => .error e
      | .ok _ =>
        -- unreachable: pyGetAttr on vInt always errors (see pyGetAttr_vInt)
        .ok "Maximum iterations reached without final response."

/-- Sequential rendering of asyncio.gather over process_fork(i, prompt):
run each child until a text response; the first exception propagates. -/
def forkRunAll (fh : ForkH) (env : Env) : Nat → List (Proc × String) → Except PyErr (List (Nat × String))
  | _, [] => .ok []
  | i, (child, prompt) :: rest =>
    match runTillTextResponse fh env child prompt 20 with
    | .error e => .error e
    | .ok r =>
      match forkRunAll fh env (i + 1) rest with
      | .error e => .error e
      | .ok rs => .ok ((i, r) :: rs)

/-- AnthropicProcessExecutor._fork with its nesting bounded by fuel
(children run with the handler at one less fuel; a forked child has
allow_fork cleared, so in runs that the source can reach the fuel is
never consumed past the first level). -/
def forkHandler : Nat → ForkH
  | 0 => fun _ _ _ _ _ => (.error (.runtimeError "fork nesting fuel exhausted"), [])
  | fuel + 1 => fun env proc args toolId lastAssistantResponse =>
    if proc.allowFork then
      match args with
      | .strArg _ => (.error (.keyError "prompts"), [])
      | .promptsArg prompts =>
        let children := prompts.map (fun _ => forkChildSetup proc toolId lastAssistantResponse)
        match forkRunAll (forkHandler fuel) env 0 (children.zip prompts) with
        | .error e => (.error e, children)
        | .ok responses => (.ok (jsonDumpsForkResponses responses), children)
    else
      (.ok forkNotAllowedMsg, [])

/-- Python str.strip character class (ASCII whitespace). -/
def isPyWs (c : Char) : Bool :=
  c = ' ' ∨ c = Char.ofNat 9 ∨ c = Char.ofNat 10 ∨ c = Char.ofNat 13
    ∨ c = Char.ofNat 11 ∨ c = Char.ofNat 12

/-- Python str.strip(): drop leading and trailing whitespace. -/
def pyStrip (s : String) : String :=
  String.mk (((s.toList.dropWhile isPyWs).reverse.dropWhile isPyWs).reverse)

/-- Truthiness test of _async_run: not user_input or user_input.strip() is
empty. -/
def pyBlank (s : String) : Bool :=
  s.isEmpty || (pyStrip s).isEmpty

/-- Outcome of LLMProcess.run / _async_run. -/
structure AsyncOut where
  proc : Proc
  requests : Nat
  result : Except PyErr Nat
deriving Repr

/-- LLMProcess._async_run: reject blank input with ValueError before
anything else; otherwise materialize the enriched system prompt on first
run (resetting state to the single system message), append the user
input, and delegate to the executor (which appends the user prompt once
more, as the source does). -/
def asyncRun (fh : ForkH) (env : Env) (proc : Proc) (userInput : String)
    (maxIterations : Nat) : AsyncOut :=
  if pyBlank userInput then
    { proc := proc, requests := 0, result := .error (.valueError "User input cannot be empty") }
  else
    let proc :=
      match proc.enrichedSystemPrompt with
      | none =>
        let e := env.enrich proc
        { proc with enrichedSystemPrompt := some e,
                    messages := [{ role := "system", content := .str e }] }
      | some _ => proc
    let proc := { proc with messages := proc.messages ++ [{ role := "user", content := .str userInput }] }
    let out := execRunWith fh env proc userInput maxIterations false
    match out.err with
    | some e => { proc := out.proc, requests := out.requests, result := .error e }
    | none => { proc := out.proc, requests := out.requests, result := .ok out.iterations }

/-- Extraction loop of get_last_message over structured content blocks:
collect the text of every text block, in order. -/
def extractTexts : List Block → List String
  | [] => []
  | .text s :: rest => s :: extractTexts rest
  | _ :: rest => extractTexts rest

/-- LLMProcess.get_last_message: empty string for an empty state; look at
the last message only; if it is an assistant message, return a string
content directly, and join the text blocks of a structured content with
single spaces; otherwise return the empty string. -/
def getLastMessage (state : List Msg) : String :=
  match state.getLast? with
  | none => ""
  | some lastMessage =>
    if lastMessage.role = "assistant" then
      match lastMessage.content with
      | .str s => s
      | .blocks bs => String.intercalate " " (extractTexts bs)
    else ""

/-- Entry of LLMProcess.linked_programs: an already-running process
(reused directly, detected via hasattr(linked_program, run)) or a program
object to instantiate. -/
inductive LinkedEntry where
  | procE (p : Proc)
  | progE
deriving Repr

/-- Parent-side view the spawn tool needs of its llm_process argument. -/
structure SpawnParent where
  linkedPrograms : List (String × LinkedEntry)

/-- Fresh LLMProcess instantiated from a program object (state starts
empty; the enriched prompt is generated on first run).  allow_fork is
modelled from the spec as true for a process that is not a fork child. -/
def mkProcess : Proc :=
  { messages := [], enrichedSystemPrompt := none, runStopReason := none,
    stopReason := none, allowFork := true }

/-- Return value of spawn_tool: either the result dict with keys program,
query and response, or the error dict (error message, is_error true). -/
inductive SpawnRes where
  | success (program query : String) (response : PyVal)
  | failure (errorMsg : String)
deriving DecidableEq, Repr

/-- Lookup of program_name in linked_programs. -/
def lookupLinked (name : String) : List (String × LinkedEntry) → Option LinkedEntry
  | [] => none
  | (n, e) :: rest => if n = name then some e else lookupLinked name rest

/-- Comma-joined list of available program names used in the spawn error
message. -/
def availablePrograms (l : List (String × LinkedEntry)) : String :=
  String.intercalate ", " (l.map Prod.fst)

/-- spawn_tool from src/llmproc/tools/spawn.py.  The second component of
the result is the final state of the child process that ran the query
(observational, for stating claims).  The response field of the success
dict is the value returned by linked_process.run(query), which in the
source is the iteration count of the executor. -/
def spawnTool (fh : ForkH) (env : Env) (programName query : String)
    (parent : Option SpawnParent) : SpawnRes × Option Proc :=
  match parent with
  | none =>
    (.failure "Spawn system call requires a parent LLMProcess with linked_programs defined", none)
  | some p =>
    match lookupLinked programName p.linkedPrograms with
    | none =>
      (.failure ("Program " ++ programName ++ " not found. Available programs: "
        ++ availablePrograms p.linkedPrograms), none)
    | some entry =>
      let child :=
        match entry with
        | .procE c => c
        | .progE => mkProcess
      let out := asyncRun fh env child query 10
      match out.result with
      | .ok n => (.success programName query (.vInt n), some out.proc)
      | .error e =>
        (.failure ("Error creating process from program " ++ programName ++ ": " ++ pyErrStr e),
          some out.proc)

namespace FDTools

/-- Modelled from the spec: ToolResult, the uniform success and error
envelope of section 4.A (the module llmproc.common.results is not in the
source tree). -/
structure ToolResult where
  content : String
  isError : Bool
deriving DecidableEq, Repr

/-- Modelled from the spec: ToolResult.from_success. -/
def ToolResult.fromSuccess (s : String) : ToolResult :=
  { content := s, isError := false }

/-- Modelled from the spec: ToolResult.from_error. -/
def ToolResult.fromError (msg : String) : ToolResult :=
  { content := msg, isError := true }

/-- Modelled from the spec: format_fd_error, the structured fd_error
payload of section 7 (the module llmproc.file_descriptors.formatter is
not in the source tree). -/
def formatFdError (errType fdId msg : String) : String :=
  "<fd_error type=\"" ++ errType ++ "\" fd=\"" ++ fdId ++ "\">" ++ msg ++ "</fd_error>"

/-- Exceptions the FD manager methods can raise, as the wrappers
distinguish them: KeyError, ValueError, and any other Exception. -/
inductive PyExc where
  | keyError (msg : String)
  | valueError (msg : String)
  | otherError (msg : String)
deriving DecidableEq, Repr

/-- Behaviour of a FileDescriptorManager instance at the boundary the
wrappers use: read_fd_content and write_fd_to_file_content, each either
returning content or raising. -/
structure FdM where
  readFdContent : String → Bool → Bool → String → Int → Int → Except PyExc String
  writeFdToFileContent : String → String → String → Bool → Bool → Except PyExc String

/-- Runtime context dictionary as the wrappers probe it; entries are
keyed strings (only the fd_manager entry carries a payload the wrappers
use). -/
def RuntimeCtx : Type := List (String × FdM)

/-- Rendering of the check: not runtime_context or fd_manager not in
runtime_context (None and the empty dict are both falsy, and both fail
the lookup). -/
def ctxFdManager : Option RuntimeCtx → Option FdM
  | none => none
  | some l => (l.find? (fun e => e.1 = "fd_manager")).map Prod.snd

/-- Error message both wrappers return when the context is unusable. -/
def ctxMissingMsg : String :=
  "File descriptor operations require runtime_context with fd_manager"

/-- read_fd_tool from src/llmproc/tools/builtin/fd_tools.py. -/
def readFdTool (fd : String) (readAll extractToNewFd : Bool) (mode : String)
    (start count : Int) (ctx : Option RuntimeCtx) : ToolResult :=
  match ctxFdManager ctx with
  | none => ToolResult.fromError ctxMissingMsg
  | some fdManager =>
    match fdManager.readFdContent fd readAll extractToNewFd mode start count with
    | .ok xmlContent => ToolResult.fromSuccess xmlContent
    | .error (.keyError e) => ToolResult.fromError (formatFdError "not_found" fd e)
    | .error (.valueError e) => ToolResult.fromError (formatFdError "invalid_page" fd e)
    | .error (.otherError e) =>
      ToolResult.fromError (formatFdError "read_error" fd ("Error reading file descriptor: " ++ e))

/-- fd_to_file_tool from src/llmproc/tools/builtin/fd_tools.py. -/
def fdToFileTool (fd filePath mode : String) (create existOk : Bool)
    (ctx : Option RuntimeCtx) : ToolResult :=
  match ctxFdManager ctx with
  | none => ToolResult.fromError ctxMissingMsg
  | some fdManager =>
    match fdManager.writeFdToFileContent fd filePath mode create existOk with
    | .ok xmlContent => ToolResult.fromSuccess xmlContent
    | .error (.keyError e) => ToolResult.fromError (formatFdError "not_found" fd e)
    | .error (.valueError e) => ToolResult.fromError (formatFdError "invalid_parameter" fd e)
    | .error (.otherError e) =>
      ToolResult.fromError (formatFdError "write_error" fd ("Error writing file descriptor to file: " ++ e))

end FDTools

namespace ProgComp

/-- Compilation errors of LLMProgram: FileNotFoundError, ValueError, plus
a fuel marker that stands for non-termination of unbounded recursive
compilation (a modelling artifact, never produced on the runs the claims
range over). -/
inductive CErr where
  | fileNotFoundError (msg : String)
  | valueError (msg : String)
  | fuelExhausted
deriving DecidableEq, Repr

/-- LLMProgram value: the fields that _compile_self reads or writes.
Linked-program entries are either a path string (compiled through
from_toml) or an in-memory program object. -/
inductive ProgT where
  | mk (compiled : Bool) (modelName provider : String)
      (systemPrompt systemPromptFile : Option String)
      (toolsEnabled : List String) (functionTools : List String)
      (funcHandlers : List (String × String))
      (linked : List (String × (String ⊕ ProgT)))

def ProgT.compiled : ProgT → Bool
  | .mk c _ _ _ _ _ _ _ _ => c

def ProgT.modelName : ProgT → String
  | .mk _ m _ _ _ _ _ _ _ => m

def ProgT.provider : ProgT → String
  | .mk _ _ p _ _ _ _ _ _ => p

def ProgT.systemPrompt : ProgT → Option String
  | .mk _ _ _ sp _ _ _ _ _ => sp

def ProgT.systemPromptFile : ProgT → Option String
  | .mk _ _ _ _ spf _ _ _ _ => spf

def ProgT.toolsEnabled : ProgT → List String
  | .mk _ _ _ _ _ te _ _ _ => te

def ProgT.functionTools : ProgT → List String
  | .mk _ _ _ _ _ _ ft _ _ => ft

def ProgT.funcHandlers : ProgT → List (String × String)
  | .mk _ _ _ _ _ _ _ fh _ => fh

def ProgT.linked : ProgT → List (String × (String ⊕ ProgT))
  | .mk _ _ _ _ _ _ _ _ l => l

/-- Environment of the compiler: the filesystem read used to resolve a
system prompt file, the from_toml loader used for path-valued linked
programs, and schema-name extraction for function tools. -/
structure CompEnv where
  readFile : String → Option String
  fromToml : String → Except CErr ProgT
  toolNameOf : String → String

/-- Python truthiness of a string. -/
def truthyS (s : String) : Bool := ¬s.isEmpty

/-- Python truthiness of an optional string (None and the empty string
are falsy). -/
def truthyO : Option String → Bool
  | none => false
  | some s => truthyS s

/-- Dict-style upsert on an association list (assignment d[k] = v). -/
def upsert (l : List (String × String)) (k v : String) : List (String × String) :=
  if l.any (fun e => e.1 = k) then
    l.map (fun e => if e.1 = k then (k, v) else e)
  else l ++ [(k, v)]

/-- _process_function_tools: for each function tool, derive its schema
name, add it to tools[enabled] if absent, and record the handler. -/
def processFunctionTools (env : CompEnv) :
    List String → List String → List (String × String) → List String × List (String × String)
  | [], enabled, handlers => (enabled, handlers)
  | ft :: rest, enabled, handlers =>
    let toolName := env.toolNameOf ft
    let enabled := if enabled.contains toolName then enabled else enabled ++ [toolName]
    processFunctionTools env rest enabled (upsert handlers toolName ft)

/-- Missing-field list of the required-field validation, in source
order. -/
def missingFields (modelName provider : String) (sysPrompt : Option String) : List String :=
  (if truthyS modelName then [] else ["model_name"])
    ++ (if truthyS provider then [] else ["provider"])
    ++ (if truthyO sysPrompt then [] else ["system_prompt or system_prompt_file"])

/-- _compile_linked_programs over the entries, parameterized by the
recursive compile used for not-yet-compiled program objects: a path entry
is loaded with from_toml (a FileNotFoundError is warned and the entry
dropped; other errors propagate); a program entry is compiled if needed
and stored compiled. -/
def compileLinkedWith (env : CompEnv) (rec : ProgT → Except CErr ProgT) :
    List (String × (String ⊕ ProgT)) → Except CErr (List (String × (String ⊕ ProgT)))
  | [] => .ok []
  | (name, .inl path) :: rest =>
    match env.fromToml path with
    | .ok q =>
      match compileLinkedWith env rec rest with
      | .ok rest2 => .ok ((name, .inr q) :: rest2)
      | .error e => .error e
    | .error (.fileNotFoundError _) => compileLinkedWith env rec rest
    | .error e => .error e
  | (name, .inr q) :: rest =>
    let qc : Except CErr ProgT := if q.compiled then .ok q else rec q
    match qc with
    | .ok q2 =>
      match compileLinkedWith env rec rest with
      | .ok rest2 => .ok ((name, .inr q2) :: rest2)
      | .error e => .error e
    | .error e => .error e

/-- System prompt resolution step of _compile_self: when a prompt file is
set and no prompt text is, read the file (FileNotFoundError when
absent); otherwise keep the current prompt. -/
def resolveSystemPrompt (env : CompEnv) (p : ProgT) : Except CErr (Option String) :=
  if truthyO p.systemPromptFile ∧ ¬truthyO p.systemPrompt then
    match env.readFile (p.systemPromptFile.getD "") with
    | some txt => .ok (some txt)
    | none => .error (.fileNotFoundError
        ("System prompt file not found: " ++ p.systemPromptFile.getD ""))
  else .ok p.systemPrompt

/-- Body of _compile_self for a not-yet-compiled program, parameterized
by the recursive compile used for linked program objects: resolve the
system prompt file, validate required fields, process function tools,
compile linked programs, and mark the program compiled. -/
def compileCore (rec : ProgT → Except CErr ProgT) (env : CompEnv) (p : ProgT) :
    Except CErr ProgT :=
  match resolveSystemPrompt env p with
  | .error e => .error e
  | .ok sysPrompt =>
    if (missingFields p.modelName p.provider sysPrompt).isEmpty then
      let fts := processFunctionTools env p.functionTools p.toolsEnabled p.funcHandlers
      match compileLinkedWith env rec p.linked with
      | .error e => .error e
      | .ok linked2 =>
        .ok (.mk true p.modelName p.provider sysPrompt p.systemPromptFile
          fts.1 p.functionTools fts.2 linked2)
    else
      .error (.valueError ("Missing required fields: "
        ++ String.intercalate ", " (missingFields p.modelName p.provider sysPrompt)))

/-- LLMProgram._compile_self (and therefore LLMProgram.compile, which
just delegates to it): return self unchanged when already compiled,
otherwise run the compilation body.  Fuel bounds the recursion through
linked program objects. -/
def compileSelf : Nat → CompEnv → ProgT → Except CErr ProgT
  | 0, _, p => if p.compiled then .ok p else .error .fuelExhausted
  | fuel + 1, env, p =>
    if p.compiled then .ok p
    else compileCore (compileSelf fuel env) env p

end ProgComp

namespace ForkIsolation

/-- Heap of mutable aggregates: one cell per process-owned message log,
preload map, and FD table (FD state is modelled from the spec as a map
from fd id to content; the FD manager is absent from the source tree).
Cells stand for the deep-copied object graphs, so a whole-cell write
models any Python mutation of the aggregate. -/
structure Heap where
  msgCells : List (List Msg)
  preloadCells : List (List (String × String))
  fdCells : List (List (String × String))
deriving Repr

/-- Reference view of a process: indexes of its three cells. -/
structure ProcRef where
  stateRef : Nat
  preloadRef : Nat
  fdRef : Nat
deriving DecidableEq, Repr

/-- Validity: the references point into the heap. -/
def validRef (h : Heap) (p : ProcRef) : Prop :=
  p.stateRef < h.msgCells.length ∧ p.preloadRef < h.preloadCells.length
    ∧ p.fdRef < h.fdCells.length

instance (h : Heap) (p : ProcRef) : Decidable (validRef h p) := by
  unfold validRef
  infer_instance

def readMsgs (h : Heap) (p : ProcRef) : List Msg :=
  h.msgCells.getD p.stateRef []

def readPreload (h : Heap) (p : ProcRef) : List (String × String) :=
  h.preloadCells.getD p.preloadRef []

def readFd (h : Heap) (p : ProcRef) : List (String × String) :=
  h.fdCells.getD p.fdRef []

def writeMsgs (h : Heap) (p : ProcRef) (v : List Msg) : Heap :=
  { h with msgCells := h.msgCells.set p.stateRef v }

def writePreload (h : Heap) (p : ProcRef) (v : List (String × String)) : Heap :=
  { h with preloadCells := h.preloadCells.set p.preloadRef v }

def writeFd (h : Heap) (p : ProcRef) (v : List (String × String)) : Heap :=
  { h with fdCells := h.fdCells.set p.fdRef v }

/-- LLMProcess.fork_process.  A fresh LLMProcess is created from the same
program (fresh cells; its preload map is freshly loaded from the program
preload files, given here as progPreload).  Then the source deep-copies
the conversation state unconditionally, deep-copies preloaded_content
only if the parent map is truthy (non-empty), and the FD table copy is
modelled from the spec (deep-copied FD manager state; absent from the
source tree, witnessed by test_fd_copy_during_fork). -/
def forkProcess (progPreload : List (String × String)) (h : Heap) (p : ProcRef) :
    Heap × ProcRef :=
  let child : ProcRef :=
    { stateRef := h.msgCells.length, preloadRef := h.preloadCells.length,
      fdRef := h.fdCells.length }
  let childPreload :=
    if (readPreload h p).isEmpty then progPreload else readPreload h p
  ({ msgCells := h.msgCells ++ [readMsgs h p],
     preloadCells := h.preloadCells ++ [childPreload],
     fdCells := h.fdCells ++ [readFd h p] }, child)

end ForkIsolation

/-- Reading of claim C9 as amended: when the last message of the state is
an assistant message, its textual content is returned (a string content
directly, the text blocks joined with single spaces otherwise); in every
other case the empty string is returned. -/
def getLastMessageAmendedSpec (state : List Msg) : String :=
  match state.getLast? with
  | none => ""
  | some m =>
    if m.role = "assistant" then
      match m.content with
      | .str s => s
      | .blocks bs => String.intercalate " "
          (bs.filterMap (fun b => match b with | .text s => some s | _ => none))
    else ""

/-- Dispatchability of a block list: every tool_use block in it has a
name other than fork and a tool call that returns without raising. -/
def blocksDispatchable (env : Env) (bs : List Block) : Prop :=
  ∀ b ∈ bs, ∀ id name args, b = Block.toolUse id name args →
    name ≠ "fork" ∧ ∃ s, env.callTool name args = .ok s

/-- Environment in which the model keeps issuing tool calls: every
provider request succeeds with a response carrying at least one tool_use
block, all of them dispatchable. -/
def toolLoopEnv (env : Env) : Prop :=
  ∀ msgs, ∃ r, env.provider msgs = .ok r ∧ hasToolCalls r = true
    ∧ blocksDispatchable env r.content

/-- Concrete environment for witnesses: the provider always answers with
the single text block Expert response and no tool calls. -/
def envW : Env :=
  { provider := fun _ => .ok { content := [.text "Expert response"], stopReason := "end_turn" },
    callTool := fun _ _ => .ok "toolres",
    enrich := fun _ => "sys" }

/-- Concrete fresh process for witnesses. -/
def procW : Proc := mkProcess

/-- Final state of the child process run by the concrete spawn scenario
of claim C2. -/
def expertChildFinal : Proc :=
  ((spawnTool (forkHandler 1) envW "expert" "hi"
    (some { linkedPrograms := [("expert", .procE procW)] })).2.getD mkProcess)

/-- Concrete environment whose provider issues a tool-free text
response, for the claim C6 witness. -/
def envNoTool : Env :=
  { provider := fun _ => .ok { content := [.text "hello"], stopReason := "end_turn" },
    callTool := fun _ _ => .ok "toolres",
    enrich := fun _ => "sys" }

/-- Concrete compiler environment for witnesses. -/
def envC : ProgComp.CompEnv :=
  { readFile := fun _ => none, fromToml := fun _ => .error .fuelExhausted,
    toolNameOf := fun s => s }

/-- Concrete already-compiled program for the claim C7 witness. -/
def progC : ProgComp.ProgT :=
  .mk true "m" "anthropic" (some "s") none [] [] [] []

/-- Helper: attribute lookup of api_calls on an int value always raises
AttributeError (what run_till_text_response does with the int returned by
AnthropicProcessExecutor.run). -/
theorem pyGetAttr_vInt (n : Nat) (attr : String) :
    pyGetAttr (.vInt n) attr = .error (.attributeError ("int object has no attribute " ++ attr)) := rfl

/-- Helper for claim C1: run_till_text_response never returns a value
when its iteration bound is positive; either the inner run propagates an
exception, or the api_calls attribute lookup on the int returned by run
raises AttributeError. -/
theorem runTillTextResponse_always_errors (fh : ForkH) (env : Env) (proc : Proc)
    (prompt : String) (n : Nat) :
    ∃ e, runTillTextResponse fh env proc prompt (n + 1) = .error e := by
  unfold runTillTextResponse
  simp only [Nat.succ_ne_zero, if_false]
  cases h : (execRunWith fh env proc prompt (n + 1) false).err with
  | some e => exact ⟨e, by simp [h]⟩
  | none =>
    refine ⟨.attributeError ("int object has no attribute " ++ "api_calls"), ?_⟩
    simp [h, pyGetAttr]

/-- Claim C1: the claim says every fork invocation with prompts p0..pn-1
on a fork-allowed process delivers to the parent the JSON list of the
children's first text responses in input order.  The code cannot deliver
it: run_till_text_response reads run_result.api_calls from the int that
AnthropicProcessExecutor.run returns, so every fork with at least one
prompt propagates an exception (AttributeError when the child run itself
does not raise first) instead of returning the JSON list. -/
theorem fork_never_returns_results (fuel : Nat) (env : Env) (proc : Proc)
    (p : String) (ps : List String) (toolId : String) (content : List Block)
    (hf : proc.allowFork = true) :
    ∃ e, (forkHandler (fuel + 1) env proc (.promptsArg (p :: ps)) toolId content).1 = .error e := by
  unfold forkHandler
  simp only [hf, if_true]
  obtain ⟨e, he⟩ := runTillTextResponse_always_errors (forkHandler fuel) env
    (forkChildSetup proc toolId content) p 19
  refine ⟨e, ?_⟩
  simp [forkRunAll, he]

/-- Witness for claim C1 at the concrete failing input: a fork-allowed
process, prompt list with the single prompt A, a provider that would
answer with a text response. -/
theorem fork_never_returns_results_witness :
    (mkProcess.allowFork = true)
    ∧ (∃ e, (forkHandler 1 envW mkProcess (.promptsArg ["A"]) "t1"
        [.toolUse "t1" "fork" (.promptsArg ["A"])]).1 = .error e) :=
  ⟨by decide, fork_never_returns_results 0 envW mkProcess "A" [] "t1"
    [.toolUse "t1" "fork" (.promptsArg ["A"])] (by decide)⟩

/-- Claim C2: the claim says spawn returns the record with response set
to the final assistant message of the child run.  Evaluated at the
concrete input spawn(expert, hi) with a child whose run answers the text
Expert response in one API call, the code returns response = the int 1
(the iteration count returned by LLMProcess.run), not the final
assistant message Expert response that the child actually produced. -/
theorem spawn_response_is_api_call_count :
    (spawnTool (forkHandler 1) envW "expert" "hi"
      (some { linkedPrograms := [("expert", .procE procW)] })).1
      = .success "expert" "hi" (.vInt 1)
    ∧ getLastMessage expertChildFinal.messages = "Expert response"
    ∧ PyVal.vInt 1 ≠ PyVal.vStr "Expert response" := by
  refine ⟨by decide, by decide, by decide⟩

/-- Helper for claim C3: the children _fork constructs are exactly one
deep copy per prompt. -/
theorem forkHandler_children (fuel : Nat) (env : Env) (proc : Proc) (ps : List String)
    (toolId : String) (content : List Block) (h : proc.allowFork = true) :
    (forkHandler (fuel + 1) env proc (.promptsArg ps) toolId content).2
      = ps.map (fun _ => forkChildSetup proc toolId content) := by
  unfold forkHandler
  simp only [h, if_true]
  cases hfa : forkRunAll (forkHandler fuel) env 0
      ((ps.map (fun _ => forkChildSetup proc toolId content)).zip ps) <;>
    simp [hfa]

/-- Claim C3: every child process created by forking has allow_fork
cleared, and invoking fork on a process with allow_fork false returns the
error result without creating any child (the parent process is passed
read-only to _fork, which performs no writes to it). -/
theorem fork_allow_fork_invariant (fuel : Nat) (env : Env) (proc : Proc)
    (args : ToolArgs) (toolId : String) (content : List Block) :
    (proc.allowFork = false →
      forkHandler (fuel + 1) env proc args toolId content = (.ok forkNotAllowedMsg, []))
    ∧ (∀ c ∈ (forkHandler (fuel + 1) env proc args toolId content).2, c.allowFork = false) := by
  constructor
  · intro h
    unfold forkHandler
    simp [h]
  · intro c hc
    by_cases h : proc.allowFork
    · cases args with
      | strArg s =>
        unfold forkHandler at hc
        simp [h] at hc
      | promptsArg ps =>
        rw [forkHandler_children fuel env proc ps toolId content h] at hc
        obtain ⟨x, _, hx⟩ := List.mem_map.mp hc
        rw [← hx]
        rfl
    · simp only [Bool.not_eq_true] at h
      unfold forkHandler at hc
      simp [h] at hc

/-- Witness for claim C3: on a process with allow_fork false, fork
returns the canned error and constructs no children. -/
theorem fork_allow_fork_invariant_witness :
    ({ mkProcess with allowFork := false } : Proc).allowFork = false
    ∧ forkHandler 1 envW { mkProcess with allowFork := false } (.promptsArg ["A"]) "t1" []
        = (.ok forkNotAllowedMsg, []) :=
  ⟨rfl, (fork_allow_fork_invariant 0 envW { mkProcess with allowFork := false }
    (.promptsArg ["A"]) "t1" []).1 rfl⟩

/-- Helper for claim C4: the loop makes at most one provider request per
permitted iteration. -/
theorem runLoop_requests_le (fh : ForkH) (env : Env) :
    ∀ (remaining : Nat) (proc : Proc) (iters reqs : Nat),
      (runLoop fh env remaining proc iters reqs).requests ≤ reqs + remaining := by
  intro remaining
  induction remaining with
  | zero => intro proc iters reqs; simp [runLoop]
  | succ r ih =>
    intro proc iters reqs
    unfold runLoop
    cases env.provider (filterNonSystem proc.messages) with
    | error e =>
      show reqs + 1 ≤ reqs + (r + 1)
      omega
    | ok response =>
      simp only
      by_cases ht : hasToolCalls response
      · simp only [ht, if_true]
        cases hd : dispatchBlocks fh env { proc with stopReason := some response.stopReason }
            response.content response.content with
        | error e =>
          show reqs + 1 ≤ reqs + (r + 1)
          omega
        | ok toolResults =>
          simp only
          calc (runLoop fh env r _ (iters + 1) (reqs + 1)).requests
              ≤ (reqs + 1) + r := ih _ _ _
            _ ≤ reqs + (r + 1) := by omega
      · simp only [ht, if_false]
        show reqs + 1 ≤ reqs + (r + 1)
        omega

/-- Helper for claim C4: dispatching a list of dispatchable blocks never
raises. -/
theorem dispatchBlocks_ok (fh : ForkH) (env : Env) (proc : Proc) (respContent : List Block) :
    ∀ bs : List Block, blocksDispatchable env bs →
      ∃ ms, dispatchBlocks fh env proc respContent bs = .ok ms := by
  intro bs
  induction bs with
  | nil => intro _; exact ⟨[], rfl⟩
  | cons b rest ih =>
    intro hdis
    have hrest : blocksDispatchable env rest := by
      intro x hx
      exact hdis x (List.mem_cons_of_mem _ hx)
    obtain ⟨ms, hms⟩ := ih hrest
    cases b with
    | text s => exact ⟨ms, by simpa [dispatchBlocks] using hms⟩
    | toolResult tid c => exact ⟨ms, by simpa [dispatchBlocks] using hms⟩
    | toolUse id name args =>
      obtain ⟨hnf, s, hs⟩ := hdis _ (List.mem_cons_self _ _) id name args rfl
      refine ⟨{ role := "user", content := .blocks [.toolResult id s] } :: ms, ?_⟩
      unfold dispatchBlocks
      simp [hnf, hs, hms]

/-- Helper for claim C4: in an environment where the model keeps issuing
dispatchable tool calls, the loop consumes all permitted iterations, one
provider request each, without an exception. -/
theorem runLoop_tool_heavy (fh : ForkH) (env : Env) (henv : toolLoopEnv env) :
    ∀ (remaining : Nat) (proc : Proc) (iters reqs : Nat),
      (runLoop fh env remaining proc iters reqs).err = none
      ∧ (runLoop fh env remaining proc iters reqs).iterations = iters + remaining
      ∧ (runLoop fh env remaining proc iters reqs).requests = reqs + remaining := by
  intro remaining
  induction remaining with
  | zero => intro proc iters reqs; simp [runLoop]
  | succ r ih =>
    intro proc iters reqs
    obtain ⟨resp, hp, ht, hd⟩ := henv (filterNonSystem proc.messages)
    obtain ⟨ms, hms⟩ := dispatchBlocks_ok fh env
      { proc with stopReason := some resp.stopReason } resp.content resp.content hd
    unfold runLoop
    rw [hp]
    simp only [ht, if_true, hms]
    refine ⟨(ih _ _ _).1, ?_, ?_⟩
    · rw [(ih _ _ _).2.1]; omega
    · rw [(ih _ _ _).2.2]; omega

/-- Helper for claim C4: the post-loop step does not change the request
count. -/
theorem execRunPost_requests (maxIterations : Nat) (out : ExecOut) :
    (execRunPost maxIterations out).requests = out.requests := by
  unfold execRunPost
  cases out.err <;> simp
  split <;> rfl

/-- Claim C4: for every run with max_iterations at least 1, the executor
makes at most max_iterations provider requests, and when the model keeps
issuing (dispatchable, non-fork) tool calls until the ceiling, the run
terminates without an exception with run_stop_reason set to
max_iterations. -/
theorem run_respects_max_iterations (fh : ForkH) (env : Env) (proc : Proc)
    (userPrompt : String) (maxIterations : Nat) (_hN : 1 ≤ maxIterations) :
    (execRunWith fh env proc userPrompt maxIterations false).requests ≤ maxIterations
    ∧ (toolLoopEnv env →
        (execRunWith fh env proc userPrompt maxIterations false).err = none
        ∧ (execRunWith fh env proc userPrompt maxIterations false).iterations = maxIterations
        ∧ (execRunWith fh env proc userPrompt maxIterations false).proc.runStopReason
            = some "max_iterations") := by
  constructor
  · unfold execRunWith
    rw [execRunPost_requests]
    have := runLoop_requests_le fh env maxIterations
      (execStartProc proc userPrompt false) 0 0
    omega
  · intro henv
    have h := runLoop_tool_heavy fh env henv maxIterations
      (execStartProc proc userPrompt false) 0 0
    have hit : (runLoop fh env maxIterations
        (execStartProc proc userPrompt false) 0 0).iterations = maxIterations := by
      omega
    unfold execRunWith execRunPost
    rw [h.1, hit]
    simp

/-- Witness for claim C4 at a concrete run with ceiling 2. -/
theorem run_respects_max_iterations_witness :
    (1 ≤ 2)
    ∧ (execRunWith (forkHandler 1) envW procW "hi" 2 false).requests ≤ 2 :=
  ⟨by decide, (run_respects_max_iterations (forkHandler 1) envW procW "hi" 2 (by decide)).1⟩

/-- Claim C5: a blank user input is rejected with ValueError before any
provider request, and the process state is unchanged by the failed
call. -/
theorem empty_input_rejected (fh : ForkH) (env : Env) (proc : Proc) (userInput : String)
    (maxIterations : Nat) (h : pyBlank userInput = true) :
    asyncRun fh env proc userInput maxIterations
      = { proc := proc, requests := 0, result := .error (.valueError "User input cannot be empty") } := by
  unfold asyncRun
  simp [h]

/-- Witness for claim C5 at the whitespace-only input. -/
theorem empty_input_rejected_witness :
    pyBlank "   " = true ∧
    asyncRun (forkHandler 1) envW procW "   " 10
      = { proc := procW, requests := 0, result := .error (.valueError "User input cannot be empty") } :=
  ⟨by decide, empty_input_rejected (forkHandler 1) envW procW "   " 10 (by decide)⟩

/-- Claim C6: in a loop iteration whose provider response has no tool_use
blocks, an assistant message is appended exactly when the response
content is non-empty; an empty response is never appended. -/
theorem no_tool_calls_append_iff (fh : ForkH) (env : Env) (proc : Proc)
    (remaining iters reqs : Nat) (r : ProviderResponse)
    (hp : env.provider (filterNonSystem proc.messages) = .ok r)
    (ht : hasToolCalls r = false) :
    (runLoop fh env (remaining + 1) proc iters reqs).proc.messages
      = (if r.content.isEmpty then proc.messages
         else proc.messages ++ [{ role := "assistant", content := .blocks r.content }])
    ∧ ((runLoop fh env (remaining + 1) proc iters reqs).proc.messages = proc.messages
        ↔ r.content.isEmpty = true) := by
  have hmain : (runLoop fh env (remaining + 1) proc iters reqs).proc.messages
      = (if r.content.isEmpty then proc.messages
         else proc.messages ++ [{ role := "assistant", content := .blocks r.content }]) := by
    unfold runLoop
    rw [hp]
    simp only [ht, if_false]
    by_cases hc : r.content.isEmpty <;> simp [hc]
  refine ⟨hmain, ?_⟩
  rw [hmain]
  by_cases hc : r.content.isEmpty
  · simp [hc]
  · simp only [hc, if_false]
    constructor
    · intro habs
      have : proc.messages.length + 1 = proc.messages.length := by
        conv_rhs => rw [← habs]
        simp
      omega
    · intro habs
      simp at habs

/-- Witness for claim C6 at a concrete text-only response. -/
theorem no_tool_calls_append_iff_witness :
    (runLoop (forkHandler 1) envNoTool 1 mkProcess 0 0).proc.messages
      = (if ({ content := [.text "hello"], stopReason := "end_turn" } : ProviderResponse).content.isEmpty
         then mkProcess.messages
         else mkProcess.messages
           ++ [{ role := "assistant",
                 content := .blocks ({ content := [.text "hello"], stopReason := "end_turn" } : ProviderResponse).content }])
    ∧ ((runLoop (forkHandler 1) envNoTool 1 mkProcess 0 0).proc.messages = mkProcess.messages
        ↔ ({ content := [.text "hello"], stopReason := "end_turn" } : ProviderResponse).content.isEmpty = true) :=
  no_tool_calls_append_iff (forkHandler 1) envNoTool mkProcess 0 0 0
    { content := [.text "hello"], stopReason := "end_turn" } rfl rfl

/-- Helper for claim C7: a successful run of the compilation body always
yields a program marked compiled. -/
theorem compileCore_ok_compiled (rec : ProgComp.ProgT → Except ProgComp.CErr ProgComp.ProgT)
    (env : ProgComp.CompEnv) (p q : ProgComp.ProgT)
    (h : ProgComp.compileCore rec env p = .ok q) : q.compiled = true := by
  unfold ProgComp.compileCore at h
  cases hs : ProgComp.resolveSystemPrompt env p with
  | error e => rw [hs] at h; simp at h
  | ok sysPrompt =>
    rw [hs] at h
    simp only at h
    by_cases hm : (ProgComp.missingFields p.modelName p.provider sysPrompt).isEmpty = true
    · rw [if_pos hm] at h
      cases hl : ProgComp.compileLinkedWith env rec p.linked with
      | error e => rw [hl] at h; simp at h
      | ok linked2 =>
        rw [hl] at h
        simp only [Except.ok.injEq] at h
        rw [← h]
        rfl
    · rw [if_neg hm] at h
      simp at h

/-- Helper for claim C7: every program compileSelf returns successfully
is marked compiled. -/
theorem compileSelf_ok_compiled (fuel : Nat) (env : ProgComp.CompEnv) (p q : ProgComp.ProgT)
    (h : ProgComp.compileSelf fuel env p = .ok q) : q.compiled = true := by
  cases fuel with
  | zero =>
    unfold ProgComp.compileSelf at h
    cases hcb : p.compiled with
    | true =>
      rw [hcb] at h
      simp only [if_true] at h
      simp only [Except.ok.injEq] at h
      rw [← h]
      exact hcb
    | false =>
      rw [hcb] at h
      simp at h
  | succ f =>
    unfold ProgComp.compileSelf at h
    cases hcb : p.compiled with
    | true =>
      rw [hcb] at h
      simp only [if_true] at h
      simp only [Except.ok.injEq] at h
      rw [← h]
      exact hcb
    | false =>
      rw [hcb] at h
      simp only [Bool.false_eq_true, if_false] at h
      exact compileCore_ok_compiled (ProgComp.compileSelf f env) env p q h

/-- Claim C7: program compilation is idempotent.  Compiling an
already-compiled program returns it unchanged, and compiling the result
of a compile (the bind of the two compiles) equals the single compile as
values. -/
theorem compile_idempotent (fuel : Nat) (env : ProgComp.CompEnv) (p : ProgComp.ProgT) :
    (p.compiled = true → ProgComp.compileSelf fuel env p = .ok p)
    ∧ (ProgComp.compileSelf fuel env p).bind (ProgComp.compileSelf fuel env)
        = ProgComp.compileSelf fuel env p := by
  have hbase : ∀ q : ProgComp.ProgT, q.compiled = true →
      ProgComp.compileSelf fuel env q = .ok q := by
    intro q hq
    cases fuel <;> (unfold ProgComp.compileSelf; simp [hq])
  refine ⟨hbase p, ?_⟩
  cases h : ProgComp.compileSelf fuel env p with
  | error e => rfl
  | ok q =>
    have hqc := compileSelf_ok_compiled fuel env p q h
    simp only [Except.bind]
    exact hbase q hqc

/-- Witness for claim C7: a concrete already-compiled program is returned
unchanged. -/
theorem compile_idempotent_witness :
    progC.compiled = true ∧ ProgComp.compileSelf 1 envC progC = .ok progC :=
  ⟨rfl, (compile_idempotent 1 envC progC).1 rfl⟩

namespace ForkIsolation

/-- Helper: reading another cell is unaffected by a set. -/
theorem getD_set_ne {α : Type} (l : List α) (i j : Nat) (hij : i ≠ j) (v d : α) :
    (l.set i v).getD j d = l.getD j d := by
  rw [List.getD_eq_getD_get?, List.getD_eq_getD_get?]
  simp only [List.get?_eq_getElem?]
  rw [List.getElem?_set_ne hij]

/-- Helper: reading the freshly appended cell returns its contents. -/
theorem getD_append_self {α : Type} (l : List α) (x : α) (d : α) :
    (l ++ [x]).getD l.length d = x := by
  rw [List.getD_append_right l [x] d l.length (le_refl _)]
  simp

/-- Counterexample to claim C8 as stated: when the parent preload map is
empty and the program has preload files, the child preload map after
fork_process is the freshly loaded program preload (here the single file
f), not a copy of the parent map (which stays empty), because the source
copies preloaded_content only when it is truthy. -/
theorem fork_preload_not_deep_copied :
    readPreload (forkProcess [("f", "x")] ⟨[[]], [[]], [[]]⟩ ⟨0, 0, 0⟩).1
        (forkProcess [("f", "x")] ⟨[[]], [[]], [[]]⟩ ⟨0, 0, 0⟩).2
      = [("f", "x")]
    ∧ readPreload (forkProcess [("f", "x")] ⟨[[]], [[]], [[]]⟩ ⟨0, 0, 0⟩).1 ⟨0, 0, 0⟩ = []
    ∧ ([("f", "x")] : List (String × String)) ≠ [] := by
  refine ⟨by decide, by decide, by decide⟩

/-- Claim C8 as amended: after fork_process, the child message log and FD
table are copies of the parent ones, the child preload map is a copy of
the parent map when that map is non-empty (and the program preload
otherwise), and all three aggregates are independent: any write to one of
the parent cells is invisible to the child and any write to a child cell
is invisible to the parent. -/
theorem fork_isolation_amended (progPreload : List (String × String)) (h : Heap) (p : ProcRef)
    (hv : validRef h p) :
    readMsgs (forkProcess progPreload h p).1 (forkProcess progPreload h p).2 = readMsgs h p
    ∧ readFd (forkProcess progPreload h p).1 (forkProcess progPreload h p).2 = readFd h p
    ∧ readPreload (forkProcess progPreload h p).1 (forkProcess progPreload h p).2
        = (if (readPreload h p).isEmpty then progPreload else readPreload h p)
    ∧ (∀ v, readMsgs (writeMsgs (forkProcess progPreload h p).1 p v) (forkProcess progPreload h p).2
        = readMsgs (forkProcess progPreload h p).1 (forkProcess progPreload h p).2)
    ∧ (∀ v, readMsgs (writeMsgs (forkProcess progPreload h p).1 (forkProcess progPreload h p).2 v) p
        = readMsgs (forkProcess progPreload h p).1 p)
    ∧ (∀ v, readPreload (writePreload (forkProcess progPreload h p).1 p v) (forkProcess progPreload h p).2
        = readPreload (forkProcess progPreload h p).1 (forkProcess progPreload h p).2)
    ∧ (∀ v, readPreload (writePreload (forkProcess progPreload h p).1 (forkProcess progPreload h p).2 v) p
        = readPreload (forkProcess progPreload h p).1 p)
    ∧ (∀ v, readFd (writeFd (forkProcess progPreload h p).1 p v) (forkProcess progPreload h p).2
        = readFd (forkProcess progPreload h p).1 (forkProcess progPreload h p).2)
    ∧ (∀ v, readFd (writeFd (forkProcess progPreload h p).1 (forkProcess progPreload h p).2 v) p
        = readFd (forkProcess progPreload h p).1 p) := by
  obtain ⟨h1, h2, h3⟩ := hv
  refine ⟨?_, ?_, ?_, ?_, ?_, ?_, ?_, ?_, ?_⟩
  · exact getD_append_self _ _ _
  · exact getD_append_self _ _ _
  · simp only [forkProcess, readPreload]
    exact getD_append_self _ _ _
  · intro v
    unfold writeMsgs readMsgs forkProcess
    simp only
    exact getD_set_ne _ _ _ (by omega) _ _
  · intro v
    unfold writeMsgs readMsgs forkProcess
    simp only
    exact getD_set_ne _ _ _ (by omega) _ _
  · intro v
    unfold writePreload readPreload forkProcess
    simp only
    exact getD_set_ne _ _ _ (by omega) _ _
  · intro v
    unfold writePreload readPreload forkProcess
    simp only
    exact getD_set_ne _ _ _ (by omega) _ _
  · intro v
    unfold writeFd readFd forkProcess
    simp only
    exact getD_set_ne _ _ _ (by omega) _ _
  · intro v
    unfold writeFd readFd forkProcess
    simp only
    exact getD_set_ne _ _ _ (by omega) _ _

/-- Witness for the amended claim C8 at a concrete one-process heap. -/
theorem fork_isolation_amended_witness :
    validRef ⟨[[⟨"user", .str "u"⟩]], [[("k", "v")]], [[("fd:1", "c")]]⟩ ⟨0, 0, 0⟩
    ∧ readMsgs
        (forkProcess [] ⟨[[⟨"user", .str "u"⟩]], [[("k", "v")]], [[("fd:1", "c")]]⟩ ⟨0, 0, 0⟩).1
        (forkProcess [] ⟨[[⟨"user", .str "u"⟩]], [[("k", "v")]], [[("fd:1", "c")]]⟩ ⟨0, 0, 0⟩).2
      = readMsgs ⟨[[⟨"user", .str "u"⟩]], [[("k", "v")]], [[("fd:1", "c")]]⟩ ⟨0, 0, 0⟩ :=
  ⟨by decide,
    (fork_isolation_amended [] ⟨[[⟨"user", .str "u"⟩]], [[("k", "v")]], [[("fd:1", "c")]]⟩ ⟨0, 0, 0⟩
      (by decide)).1⟩

end ForkIsolation

/-- Counterexample to claim C9 as stated: the state [assistant hi, user
x] contains an assistant message whose textual content is hi, yet
get_last_message returns the empty string because it only looks at the
very last message; and on the assistant content [text a, text b] the
function returns the blocks joined with a space, not their plain
concatenation ab. -/
theorem get_last_message_original_claim_fails :
    getLastMessage [⟨"assistant", .str "hi"⟩, ⟨"user", .str "x"⟩] = ""
    ∧ ("" : String) ≠ "hi"
    ∧ getLastMessage [⟨"assistant", .blocks [.text "a", .text "b"]⟩] = "a b"
    ∧ ("a b" : String) ≠ "ab" := by
  refine ⟨by decide, by decide, by decide, by decide⟩

/-- Claim C9 as amended: get_last_message returns the textual content of
the last message when that message is from the assistant (string content
directly, text blocks joined with single spaces), and the empty string
otherwise. -/
theorem get_last_message_amended (state : List Msg) :
    getLastMessage state = getLastMessageAmendedSpec state := by
  unfold getLastMessage getLastMessageAmendedSpec
  cases state.getLast? with
  | none => rfl
  | some m =>
    by_cases hr : m.role = "assistant"
    · simp only [hr, if_true]
      cases m.content with
      | str s => rfl
      | blocks bs =>
        have h : ∀ bs : List Block,
            extractTexts bs = bs.filterMap (fun b => match b with | .text s => some s | _ => none) := by
          intro bs
          induction bs with
          | nil => rfl
          | cons b rest ih => cases b <;> simp [extractTexts, List.filterMap, ih]
        simp [h]
    · simp [hr]
namespace FDTools

/-- Claim C10: the read_fd and fd_to_file wrappers are total at the tool
boundary.  A missing runtime context (or one without the fd_manager key)
yields the canned error ToolResult; a KeyError from the manager maps to a
not_found error, a ValueError to invalid_page for reads and
invalid_parameter for writes, any other exception to read_error or
write_error; a successful manager call yields a success ToolResult; and
the result is an error envelope exactly when the context was unusable or
the manager raised, so no exception ever reaches the caller. -/
theorem fd_tools_total_error_mapping (fd : String) (readAll extractToNewFd : Bool)
    (mode : String) (start count : Int) (filePath wmode : String) (create existOk : Bool)
    (ctx : Option RuntimeCtx) :
    (ctxFdManager ctx = none →
      readFdTool fd readAll extractToNewFd mode start count ctx = ToolResult.fromError ctxMissingMsg
      ∧ fdToFileTool fd filePath wmode create existOk ctx = ToolResult.fromError ctxMissingMsg)
    ∧ (∀ m, ctxFdManager ctx = some m →
        (∀ e, m.readFdContent fd readAll extractToNewFd mode start count = .error (.keyError e) →
          readFdTool fd readAll extractToNewFd mode start count ctx
            = ToolResult.fromError (formatFdError "not_found" fd e))
        ∧ (∀ e, m.readFdContent fd readAll extractToNewFd mode start count = .error (.valueError e) →
          readFdTool fd readAll extractToNewFd mode start count ctx
            = ToolResult.fromError (formatFdError "invalid_page" fd e))
        ∧ (∀ e, m.readFdContent fd readAll extractToNewFd mode start count = .error (.otherError e) →
          readFdTool fd readAll extractToNewFd mode start count ctx
            = ToolResult.fromError (formatFdError "read_error" fd ("Error reading file descriptor: " ++ e)))
        ∧ (∀ s, m.readFdContent fd readAll extractToNewFd mode start count = .ok s →
          readFdTool fd readAll extractToNewFd mode start count ctx = ToolResult.fromSuccess s)
        ∧ (∀ e, m.writeFdToFileContent fd filePath wmode create existOk = .error (.keyError e) →
          fdToFileTool fd filePath wmode create existOk ctx
            = ToolResult.fromError (formatFdError "not_found" fd e))
        ∧ (∀ e, m.writeFdToFileContent fd filePath wmode create existOk = .error (.valueError e) →
          fdToFileTool fd filePath wmode create existOk ctx
            = ToolResult.fromError (formatFdError "invalid_parameter" fd e))
        ∧ (∀ e, m.writeFdToFileContent fd filePath wmode create existOk = .error (.otherError e) →
          fdToFileTool fd filePath wmode create existOk ctx
            = ToolResult.fromError (formatFdError "write_error" fd ("Error writing file descriptor to file: " ++ e)))
        ∧ (∀ s, m.writeFdToFileContent fd filePath wmode create existOk = .ok s →
          fdToFileTool fd filePath wmode create existOk ctx = ToolResult.fromSuccess s))
    ∧ ((readFdTool fd readAll extractToNewFd mode start count ctx).isError = true
        ↔ ¬∃ m s, ctxFdManager ctx = some m
            ∧ m.readFdContent fd readAll extractToNewFd mode start count = .ok s)
    ∧ ((fdToFileTool fd filePath wmode create existOk ctx).isError = true
        ↔ ¬∃ m s, ctxFdManager ctx = some m
            ∧ m.writeFdToFileContent fd filePath wmode create existOk = .ok s) := by
  refine ⟨?_, ?_, ?_, ?_⟩
  · intro hc
    constructor
    · unfold readFdTool; rw [hc]
    · unfold fdToFileTool; rw [hc]
  · intro m hm
    refine ⟨?_, ?_, ?_, ?_, ?_, ?_, ?_, ?_⟩ <;> intro x hx
    · unfold readFdTool; rw [hm]; simp only [hx]
    · unfold readFdTool; rw [hm]; simp only [hx]
    · unfold readFdTool; rw [hm]; simp only [hx]
    · unfold readFdTool; rw [hm]; simp only [hx]
    · unfold fdToFileTool; rw [hm]; simp only [hx]
    · unfold fdToFileTool; rw [hm]; simp only [hx]
    · unfold fdToFileTool; rw [hm]; simp only [hx]
    · unfold fdToFileTool; rw [hm]; simp only [hx]
  · unfold readFdTool
    cases hm : ctxFdManager ctx with
    | none =>
      constructor
      · rintro - ⟨m, s, hms, -⟩
        simp at hms
      · intro
        rfl
    | some m =>
      cases hr : m.readFdContent fd readAll extractToNewFd mode start count with
      | ok s =>
        simp only [hr]
        constructor
        · intro habs
          simp [ToolResult.fromSuccess] at habs
        · intro habs
          exact absurd ⟨m, s, rfl, hr⟩ habs
      | error e =>
        cases e <;>
          (simp only [hr]
           constructor
           · rintro - ⟨m2, s2, hms, hok⟩
             cases hms
             rw [hr] at hok
             simp at hok
           · intro
             rfl)
  · unfold fdToFileTool
    cases hm : ctxFdManager ctx with
    | none =>
      constructor
      · rintro - ⟨m, s, hms, -⟩
        simp at hms
      · intro
        rfl
    | some m =>
      cases hr : m.writeFdToFileContent fd filePath wmode create existOk with
      | ok s =>
        simp only [hr]
        constructor
        · intro habs
          simp [ToolResult.fromSuccess] at habs
        · intro habs
          exact absurd ⟨m, s, rfl, hr⟩ habs
      | error e =>
        cases e <;>
          (simp only [hr]
           constructor
           · rintro - ⟨m2, s2, hms, hok⟩
             cases hms
             rw [hr] at hok
             simp at hok
           · intro
             rfl)

/-- Witness for claim C10 at the missing runtime context. -/
theorem fd_tools_total_error_mapping_witness :
    (ctxFdManager none = none)
    ∧ readFdTool "fd:1" false false "page" 1 1 none = ToolResult.fromError ctxMissingMsg
    ∧ fdToFileTool "fd:1" "/tmp/x" "write" true true none = ToolResult.fromError ctxMissingMsg :=
  ⟨rfl,
    ((fd_tools_total_error_mapping "fd:1" false false "page" 1 1 "/tmp/x" "write" true true none).1 rfl).1,
    ((fd_tools_total_error_mapping "fd:1" false false "page" 1 1 "/tmp/x" "write" true true none).1 rfl).2⟩

end FDTools
